import Mathlib

/-!
Shallow embedding of `src/request.js` (RobusGauli/request): a fluent HTTP
request builder with header/body validation, two optional asynchronous
middlewares and terminal dispatchers delegating to a fetch-compatible
transport.  JavaScript runtime values are modelled by the inductive `JSVal`;
the builder object is the structure `Builder`; asynchronous middleware
execution is modelled by an explicit event trace together with an
`Except`-style outcome.
-/

namespace Req

/-- A JavaScript runtime value, with the categories distinguished by the
source's `typeOf` classifier (null, array, NaN, symbol, string, object,
number, boolean, function, undefined).  Functions and symbols are opaque and
carried by an identifier. -/
inductive JSVal where
  | null
  | undefined
  | nan
  | num (n : Int)
  | str (s : String)
  | bool (b : Bool)
  | symbol (id : Nat)
  | func (id : Nat)
  | arr (elems : List JSVal)
  | obj (fields : List (String × JSVal))

/-- The classification of `typeOf` (src/request.js:40-51): explicit null
check, then array check, then numeric-NaN check, then the primitive
`typeof` tag.  The constructors of `JSVal` are disjoint, so the
first-match-wins precedence of the source collapses to a total match. -/
def typeName : JSVal → String
  | .null => "null"
  | .arr _ => "array"
  | .nan => "NaN"
  | .undefined => "undefined"
  | .num _ => "number"
  | .str _ => "string"
  | .bool _ => "boolean"
  | .symbol _ => "symbol"
  | .func _ => "function"
  | .obj _ => "object"

/-- Source `typeOf(v).isString()`. -/
def isString (v : JSVal) : Bool := typeName v == "string"

/-- Source `typeOf(v).isNotString()`. -/
def isNotString (v : JSVal) : Bool := typeName v != "string"

/-- Source `typeOf(v).isFunction()`. -/
def isFunction (v : JSVal) : Bool := typeName v == "function"

/-- Source `typeOf(v).isUndefinedOrNull()`. -/
def isUndefinedOrNull (v : JSVal) : Bool :=
  typeName v == "null" || typeName v == "undefined"

/-- JavaScript truthiness, used by `path || this.__path` and by
`if (middlewares.header)`. -/
def truthy : JSVal → Bool
  | .null => false
  | .undefined => false
  | .nan => false
  | .num n => !(n == 0)
  | .str s => !(s == "")
  | .bool b => b
  | .symbol _ => true
  | .func _ => true
  | .arr _ => true
  | .obj _ => true

/-- The JavaScript `a || b` operator (value-returning disjunction). -/
def jsOr (a b : JSVal) : JSVal := if truthy a then a else b

/-- The string content of a `JSVal` known to be a string. -/
def asString : JSVal → String
  | .str s => s
  | _ => ""

mutual

/-- JavaScript string coercion as used by the template literal
`` `Bearer ${token}` `` (src/request.js:117).  Returns `none` when the
coercion throws a `TypeError` (symbols, and arrays whose flattening reaches
a symbol). -/
def jsToString : JSVal → Option String
  | .null => some "null"
  | .undefined => some "undefined"
  | .nan => some "NaN"
  | .num n => some (toString n)
  | .str s => some s
  | .bool b => some (if b then "true" else "false")
  | .symbol _ => none
  | .func _ => some "function"
  | .arr xs => (jsToStringList xs).map (String.intercalate ",")
  | .obj _ => some "[object Object]"

/-- Element-wise coercion for `Array.prototype.toString` (join by ","):
null/undefined elements contribute the empty string. -/
def jsToStringList : List JSVal → Option (List String)
  | [] => some []
  | .null :: rest => (jsToStringList rest).map (fun l => "" :: l)
  | .undefined :: rest => (jsToStringList rest).map (fun l => "" :: l)
  | v :: rest =>
    match jsToString v, jsToStringList rest with
    | some s, some l => some (s :: l)
    | _, _ => none

end

/-- JSON string escaping for one character (quote and backslash). -/
def jsonEscapeChar (c : Char) : String :=
  if c = '\\' then "\\\\"
  else if c = '"' then "\\\""
  else String.singleton c

/-- A JSON-quoted string literal. -/
def jsonQuote (s : String) : String :=
  "\"" ++ String.join (s.data.map jsonEscapeChar) ++ "\""

mutual

/-- Platform `JSON.stringify` on one value; `none` models the JavaScript result
`undefined` (for `undefined`, functions and symbols). -/
def jsonStringifyAux : JSVal → Option String
  | .null => some "null"
  | .undefined => none
  | .nan => some "null"
  | .num n => some (toString n)
  | .str s => some (jsonQuote s)
  | .bool b => some (if b then "true" else "false")
  | .symbol _ => none
  | .func _ => none
  | .arr xs => some ("[" ++ String.intercalate "," (jsonStringifyArr xs) ++ "]")
  | .obj fs => some ("\x7b" ++ String.intercalate "," (jsonStringifyObj fs) ++ "\x7d")

/-- Array elements: unserializable elements become `null`. -/
def jsonStringifyArr : List JSVal → List String
  | [] => []
  | v :: rest =>
    (match jsonStringifyAux v with
      | some s => s
      | none => "null") :: jsonStringifyArr rest

/-- Object entries: unserializable values are skipped. -/
def jsonStringifyObj : List (String × JSVal) → List String
  | [] => []
  | (k, v) :: rest =>
    match jsonStringifyAux v with
    | some s => (jsonQuote k ++ ":" ++ s) :: jsonStringifyObj rest
    | none => jsonStringifyObj rest

end

/-- Platform `JSON.stringify(body)` as a JavaScript value: a string when
serialization succeeds, `undefined` otherwise. -/
def jsonStringify (v : JSVal) : JSVal :=
  match jsonStringifyAux v with
  | some s => .str s
  | none => .undefined

end Req

namespace Req

/-- The error values the builder can raise: `InvalidRequestHeader` and
`InvalidBody` are the source's custom error classes (src/request.js:4-17);
`typeError` models the platform's built-in `TypeError`. -/
inductive JSError where
  | invalidRequestHeader (key value : JSVal)
  | invalidBody (body : JSVal)
  | typeError (msg : String)

/-- The `__middlewares` record of a builder instance: one optional slot per
kind, initially `null` (src/request.js:96-99). -/
structure Middlewares where
  body : JSVal
  header : JSVal

/-- A builder instance as produced by the binder returned from
`requestFactory` (src/request.js:89-211).  Field names drop the `__`
privacy markers of the source: `path` is `__path`, `headers` is
`__headers`, `body` is `__body`, `middlewares` is `__middlewares`.
JavaScript objects are modelled as association lists looked up by
`objGet`. -/
structure Builder where
  baseURL : String
  apiVersion : JSVal
  path : JSVal
  headers : List (String × JSVal)
  body : JSVal
  middlewares : Middlewares

/-- JavaScript property read `fields[k]`: the stored value, or `undefined`
when the key is absent. -/
def objGet (fields : List (String × JSVal)) (k : String) : JSVal :=
  match fields.lookup k with
  | some v => v
  | none => .undefined

/-- The object spread `{...fields, [k]: v}`: overwrites the value of an
existing key in place, otherwise appends the new entry (JavaScript objects
cannot hold a key twice, so replacing the first occurrence is exact). -/
def setKey : List (String × JSVal) → String → JSVal → List (String × JSVal)
  | [], k, v => [(k, v)]
  | (k2, v2) :: rest, k, v =>
    if k2 == k then (k, v) :: rest
    else (k2, v2) :: setKey rest k v

/-- The binder returned by a successful `requestFactory` call: closes over
`baseURL` and `apiVersion` and produces a fresh builder instance for a
path (src/request.js:89-99). -/
def bind (baseURL : String) (apiVersion : JSVal) (uri : JSVal) : Builder :=
  { baseURL := baseURL
    apiVersion := apiVersion
    path := uri
    headers := []
    body := .null
    middlewares := { body := .null, header := .null } }

/-- Source `requestFactory(baseURL, apiVersion)` (src/request.js:80-83): throws a
`TypeError` when `typeof baseURL !== 'string'`, otherwise returns the
binder. -/
def requestFactory (baseURL apiVersion : JSVal) :
    Except JSError (JSVal → Builder) :=
  if isString baseURL then .ok (bind (asString baseURL) apiVersion)
  else .error (.typeError "baseURL must be of type string")

/-- Source `withHeader(key, value)` (src/request.js:100-110).  The JavaScript
method mutates `this` and returns it, or throws before any mutation; the
model returns the post-call instance together with the raised error, so a
`some` error comes with the untouched instance. -/
def Builder.withHeader (ctx : Builder) (key value : JSVal) :
    Builder × Option JSError :=
  if isNotString key || isNotString value then
    (ctx, some (.invalidRequestHeader key value))
  else
    ({ ctx with headers := setKey ctx.headers (asString key) value }, none)

/-- Source `withAuthorization(token)` (src/request.js:111-114). -/
def Builder.withAuthorization (ctx : Builder) (token : JSVal) :
    Builder × Option JSError :=
  ctx.withHeader (.str "Authorization") token

/-- Source `withBearerAuthorization(token)` (src/request.js:115-119): interpolates
the token into the template literal `` `Bearer ${token}` `` (which throws a
`TypeError` when string coercion of the token is impossible) and delegates
to `withAuthorization`. -/
def Builder.withBearerAuthorization (ctx : Builder) (token : JSVal) :
    Builder × Option JSError :=
  match jsToString token with
  | none => (ctx, some (.typeError "Cannot convert a Symbol value to a string"))
  | some s => ctx.withAuthorization (.str ("Bearer " ++ s))

/-- Source `withBody(body)` (src/request.js:120-128). -/
def Builder.withBody (ctx : Builder) (body : JSVal) :
    Builder × Option JSError :=
  if isUndefinedOrNull body then (ctx, some (.invalidBody body))
  else ({ ctx with body := body }, none)

/-- Source `withContentType(type)` (src/request.js:129-132). -/
def Builder.withContentType (ctx : Builder) (type : JSVal) :
    Builder × Option JSError :=
  ctx.withHeader (.str "Content-Type") type

/-- The destructuring read `({ header, body })` performed on the argument of
`withMiddleware`: object arguments yield their properties, other
non-nullish values coerce to wrapper objects without own `header`/`body`
properties, so the slots read `undefined`. -/
def destructureSlot (arg : JSVal) (k : String) : JSVal :=
  match arg with
  | .obj fs => objGet fs k
  | _ => .undefined

/-- The `withMiddleware({header, body})` mutator (src/request.js:133-142).
Destructuring `null`/`undefined` throws a `TypeError`; otherwise each slot
value replaces the stored middleware exactly when it classifies as a
function. -/
def Builder.withMiddleware (ctx : Builder) (arg : JSVal) :
    Builder × Option JSError :=
  match arg with
  | .null => (ctx, some (.typeError "Cannot destructure property of null"))
  | .undefined =>
    (ctx, some (.typeError "Cannot destructure property of undefined"))
  | arg =>
    let header := destructureSlot arg "header"
    let body := destructureSlot arg "body"
    let mws := ctx.middlewares
    let mws := if isFunction header then { mws with header := header } else mws
    let mws := if isFunction body then { mws with body := body } else mws
    ({ ctx with middlewares := mws }, none)

/-- The transport-parameter record produced by `_parameters`
(src/request.js:143-162): method, headers, and an optional `body` key. -/
structure RequestPayload where
  method : String
  headers : List (String × JSVal)
  body : Option JSVal

/-- Source `_parameters(method)` (src/request.js:143-162): reads the
`Content-Type` header, includes the `body` key exactly when the stored body
is not undefined-or-null and the content type classifies as a string, and
serializes the body as JSON when the content type starts with
`application/json`. -/
def Builder.parameters (ctx : Builder) (method : String) : RequestPayload :=
  let contentType := objGet ctx.headers "Content-Type"
  let isBodyIncluded := !(isUndefinedOrNull ctx.body) && isString contentType
  if isBodyIncluded then
    { method := method
      headers := ctx.headers
      body := some (if (asString contentType).startsWith "application/json"
        then jsonStringify ctx.body
        else ctx.body) }
  else
    { method := method, headers := ctx.headers, body := none }

/-- The second argument handed to the external transport `fetch`.  The
source's `_call` passes `this._parameters` — the function object itself,
uninvoked — as that argument (src/request.js:178); `record` is the shape of
an assembled parameter record. -/
inductive FetchArg where
  | record (p : RequestPayload)
  | paramsFunction

/-- Observable events of one dispatch, in execution order: invocation of
the header middleware (with the header mapping it receives), invocation of
the body middleware (with the body value it receives), and the transport
call with its URL and second argument. -/
inductive Event where
  | invokeHeaderMw (headers : List (String × JSVal))
  | invokeBodyMw (body : JSVal)
  | invokeTransport (url : String) (arg : FetchArg)

end Req

namespace Req

/-- The module-level `withMiddleware(ctx, cb)` (src/request.js:218-228),
an `async` function: when the header slot is truthy its middleware is
invoked with `ctx.__headers` and awaited; then, when the body slot is
truthy, its middleware is invoked with `ctx.__body` and awaited; then the
continuation runs.  A middleware is an external asynchronous function, so
its observable effect on the dispatch is its outcome: `hOut` (resp. `bOut`)
is the settled outcome of awaiting the header (resp. body) middleware —
`.ok ()` for fulfilment, `.error e` for rejection with reason `e`.  The
result is the ordered trace of invocation events together with the
dispatch outcome; a rejection aborts the chain and propagates through the
returned promise. -/
def withMiddleware (ctx : Builder) (hOut bOut : Except JSVal Unit)
    (cont : Event) : List Event × Except JSVal Unit :=
  if truthy ctx.middlewares.header then
    match hOut with
    | .error e => ([.invokeHeaderMw ctx.headers], .error e)
    | .ok _ =>
      if truthy ctx.middlewares.body then
        match bOut with
        | .error e =>
          ([.invokeHeaderMw ctx.headers, .invokeBodyMw ctx.body], .error e)
        | .ok _ =>
          ([.invokeHeaderMw ctx.headers, .invokeBodyMw ctx.body, cont], .ok ())
      else ([.invokeHeaderMw ctx.headers, cont], .ok ())
  else
    if truthy ctx.middlewares.body then
      match bOut with
      | .error e => ([.invokeBodyMw ctx.body], .error e)
      | .ok _ => ([.invokeBodyMw ctx.body, cont], .ok ())
    else ([cont], .ok ())

/-- The URL computation of `_call` (src/request.js:174-176): `baseURL`
concatenated with the path when the path classifies as a string, else
`baseURL` alone. -/
def buildURL (baseURL : String) (path : JSVal) : String :=
  if isString path then baseURL ++ asString path else baseURL

/-- Source `_call(method, path)` (src/request.js:173-179): builds the URL, then
runs `withMiddleware(this, () => fetch(url, this._parameters))`.  The
source passes `this._parameters` — the function object itself, uninvoked —
as the second argument of `fetch`, so the `method` argument is accepted but
never consumed; the transport event records `FetchArg.paramsFunction`
accordingly. -/
def Builder.call (ctx : Builder) (_method : String) (path : JSVal)
    (hOut bOut : Except JSVal Unit) : List Event × Except JSVal Unit :=
  Req.withMiddleware ctx hOut bOut
    (.invokeTransport (buildURL ctx.baseURL path) .paramsFunction)

/-- Source `post(path)` (src/request.js:181-183): `_call('POST', path || __path)`. -/
def Builder.post (ctx : Builder) (path : JSVal)
    (hOut bOut : Except JSVal Unit) : List Event × Except JSVal Unit :=
  ctx.call "POST" (jsOr path ctx.path) hOut bOut

/-- Source `postJSON(path)` (src/request.js:187-191): sets
`Content-Type: application/json` and delegates to `post(path || __path)`
on the mutated instance. -/
def Builder.postJSON (ctx : Builder) (path : JSVal)
    (hOut bOut : Except JSVal Unit) : List Event × Except JSVal Unit :=
  let ctx2 := (ctx.withContentType (.str "application/json")).1
  ctx2.post (jsOr path ctx2.path) hOut bOut

/-- Source `put(path)` (src/request.js:193-195): `_call('PUT', path || __path)`. -/
def Builder.put (ctx : Builder) (path : JSVal)
    (hOut bOut : Except JSVal Unit) : List Event × Except JSVal Unit :=
  ctx.call "PUT" (jsOr path ctx.path) hOut bOut

/-- Source `putJSON(path)` (src/request.js:199-202): sets
`Content-Type: application/json` and delegates to `put(path || __path)` on
the mutated instance. -/
def Builder.putJSON (ctx : Builder) (path : JSVal)
    (hOut bOut : Except JSVal Unit) : List Event × Except JSVal Unit :=
  let ctx2 := (ctx.withContentType (.str "application/json")).1
  ctx2.put (jsOr path ctx2.path) hOut bOut

/-- Source `get(path)` (src/request.js:204-206): `_call('GET', path || __path)`. -/
def Builder.get (ctx : Builder) (path : JSVal)
    (hOut bOut : Except JSVal Unit) : List Event × Except JSVal Unit :=
  ctx.call "GET" (jsOr path ctx.path) hOut bOut

/-- Source `delete(path)` (src/request.js:208-210): `_call('DELETE', path ||
this._path)`.  The instance defines only `__path`; the property read
`this._path` therefore yields `undefined`, so with no (or a falsy)
explicit path the effective path is `undefined` and the URL falls back to
`baseURL` alone. -/
def Builder.delete (ctx : Builder) (path : JSVal)
    (hOut bOut : Except JSVal Unit) : List Event × Except JSVal Unit :=
  ctx.call "DELETE" (jsOr path .undefined) hOut bOut

end Req

namespace Req

/-- Spec-side parameter assembly, following the specification's words
(§4.5): the `body` key is included if and only if (a) a body has been set
(not undefined-or-null) and (b) a `Content-Type` header is present and
classifies as a string; when included, the payload is the JSON
serialization of the stored body if the `Content-Type` value starts with
the literal `application/json`, and the stored body unmodified
otherwise.  Compared against `Builder.parameters`, the translation of
`_parameters`. -/
def specBuildParameters (ctx : Builder) (method : String) : RequestPayload :=
  let ctOpt := ctx.headers.lookup "Content-Type"
  let included := !(isUndefinedOrNull ctx.body) &&
    (match ctOpt with
      | some v => isString v
      | none => false)
  { method := method
    headers := ctx.headers
    body :=
      if included then
        some (match ctOpt with
          | some (.str s) =>
            if s.startsWith "application/json" then jsonStringify ctx.body
            else ctx.body
          | _ => ctx.body)
      else none }

/-- Spec-side URL of a non-delete dispatcher (§4.6): effective path is the
explicit argument if provided and non-falsy, else the stored default path;
the URL is `baseURL` concatenated with the effective path when that path
classifies as a string, else `baseURL` alone. -/
def specTransportURL (ctx : Builder) (path : JSVal) : String :=
  buildURL ctx.baseURL (jsOr path ctx.path)

/-- Spec-side second argument of the transport call (§4.6/§6): the
parameter record assembled by parameter assembly with the dispatcher's
HTTP method. -/
def specFetchArg (ctx : Builder) (method : String) : FetchArg :=
  .record (ctx.parameters method)

/-- Whether a transport second argument is an assembled parameter record
(as opposed to the uninvoked `_parameters` function object). -/
def FetchArg.isRecord : FetchArg → Bool
  | .record _ => true
  | .paramsFunction => false

/-- The example instance of the spec (§8): bound to path `/users` with base
URL `https://api.x.com`. -/
def b0 : Builder :=
  bind "https://api.x.com" (.str "v1") (.str "/users")

/-- Instance `b0` after `withContentType('application/json')` and `withBody({a:1})`. -/
def bJson : Builder :=
  ((b0.withContentType (.str "application/json")).1.withBody
    (.obj [("a", .num 1)])).1

/-- Instance `b0` after `withBody({a:1})` with no `Content-Type` header. -/
def bNoCT : Builder :=
  (b0.withBody (.obj [("a", .num 1)])).1

/-- Instance `b0` with a header middleware registered (an opaque function value). -/
def bMw : Builder :=
  (b0.withMiddleware (.obj [("header", .func 0)])).1

end Req

namespace Req

theorem lookup_setKey_self (k : String) (v : JSVal) :
    ∀ hs : List (String × JSVal), List.lookup k (setKey hs k v) = some v := by
  intro hs
  induction hs with
  | nil => simp [setKey, List.lookup]
  | cons hd tl ih =>
    obtain ⟨k2, v2⟩ := hd
    by_cases h : (k2 == k)
    · simp [setKey, h, List.lookup]
    · have h' : ¬(k2 = k) := by simpa using h
      have h2 : (k == k2) = false := by simpa using Ne.symm h'
      simp [setKey, h, h2, List.lookup, ih]

theorem lookup_setKey_ne (k k2 : String) (v : JSVal) (hne : k2 ≠ k) :
    ∀ hs : List (String × JSVal),
      List.lookup k2 (setKey hs k v) = List.lookup k2 hs := by
  intro hs
  induction hs with
  | nil => simp [setKey, List.lookup, show (k2 == k) = false by simpa using hne]
  | cons hd tl ih =>
    obtain ⟨a, b⟩ := hd
    by_cases h : (a == k)
    · have ha : a = k := by simpa using h
      have h1 : (k2 == k) = false := by simpa using hne
      have h2 : (k2 == a) = false := by simpa [ha] using hne
      simp [setKey, h, List.lookup, h1, h2]
    · by_cases h3 : (k2 == a)
      · simp [setKey, h, List.lookup, h3]
      · simp [setKey, h, List.lookup, h3, ih]

theorem objGet_setKey_self (hs : List (String × JSVal)) (k : String) (v : JSVal) :
    objGet (setKey hs k v) k = v := by
  unfold objGet
  rw [lookup_setKey_self]

theorem objGet_setKey_ne (hs : List (String × JSVal)) (k k2 : String) (v : JSVal)
    (hne : k2 ≠ k) :
    objGet (setKey hs k v) k2 = objGet hs k2 := by
  unfold objGet
  rw [lookup_setKey_ne k k2 v hne]

end Req

namespace Req

theorem parameters_eq_spec (ctx : Builder) (method : String) :
    ctx.parameters method = specBuildParameters ctx method := by
  unfold Builder.parameters specBuildParameters objGet
  cases h : ctx.headers.lookup "Content-Type" with
  | none => simp [isString, typeName]
  | some v =>
    cases v <;> simp [isString, typeName, asString]
    by_cases hb : isUndefinedOrNull ctx.body = false <;> simp [hb]

set_option maxRecDepth 20000 in
/-- C3: the body key of the assembled parameter record is present iff a
body is set and a string `Content-Type` header is present; it is the JSON
serialization when the content type starts with `application/json`, the raw
body otherwise; with `Content-Type: application/json` and body `{a:1}` the
payload is the JSON text `{"a":1}`, and with no `Content-Type` there is no
body key. -/
theorem C3_parameter_assembly (ctx : Builder) (method : String) :
    ctx.parameters method = specBuildParameters ctx method
    ∧ (bJson.parameters "POST").body = some (.str "\x7b\"a\":1\x7d")
    ∧ (bNoCT.parameters "POST").body = none :=
  ⟨parameters_eq_spec ctx method, by with_unfolding_all rfl, by with_unfolding_all rfl⟩

/-- C4: with both middleware outcomes fulfilled, the dispatch trace is
exactly the header-middleware invocation (when registered, receiving the
current header mapping), then the body-middleware invocation (when
registered, receiving the current body), then the continuation — each at
most once, strictly in this order. -/
theorem C4_middleware_order (ctx : Builder) (cont : Event) :
    Req.withMiddleware ctx (.ok ()) (.ok ()) cont =
      ((if truthy ctx.middlewares.header then [Event.invokeHeaderMw ctx.headers]
          else [])
        ++ (if truthy ctx.middlewares.body then [Event.invokeBodyMw ctx.body]
          else [])
        ++ [cont], .ok ()) := by
  unfold Req.withMiddleware
  by_cases h1 : truthy ctx.middlewares.header <;>
    by_cases h2 : truthy ctx.middlewares.body <;> simp [h1, h2]

/-- C5: when a registered middleware's outcome is a rejection the dispatch
outcome is that rejection and the transport continuation never appears in
the trace. -/
theorem C5_middleware_failure (ctx : Builder) (hOut bOut : Except JSVal Unit)
    (url : String) (a : FetchArg) (e : JSVal) :
    ((Req.withMiddleware ctx hOut bOut (.invokeTransport url a)).2 = .error e →
      Event.invokeTransport url a ∉
        (Req.withMiddleware ctx hOut bOut (.invokeTransport url a)).1)
    ∧ (truthy ctx.middlewares.header = true → hOut = .error e →
        (Req.withMiddleware ctx hOut bOut (.invokeTransport url a)).2 = .error e)
    ∧ (truthy ctx.middlewares.body = true → bOut = .error e →
        (truthy ctx.middlewares.header = false ∨ hOut = .ok ()) →
        (Req.withMiddleware ctx hOut bOut (.invokeTransport url a)).2 = .error e) := by
  unfold Req.withMiddleware
  by_cases h1 : truthy ctx.middlewares.header <;>
    by_cases h2 : truthy ctx.middlewares.body <;>
      cases hOut <;> cases bOut <;> simp [h1, h2]

theorem C5_middleware_failure_witness :
    (Req.withMiddleware bMw (.error (.str "boom")) (.ok ())
      (.invokeTransport "https://api.x.com/users" .paramsFunction)).2
        = .error (.str "boom")
    ∧ Event.invokeTransport "https://api.x.com/users" FetchArg.paramsFunction ∉
        (Req.withMiddleware bMw (.error (.str "boom")) (.ok ())
          (.invokeTransport "https://api.x.com/users" .paramsFunction)).1 := by
  have h := C5_middleware_failure bMw (.error (.str "boom")) (.ok ())
    "https://api.x.com/users" .paramsFunction (.str "boom")
  have h2 := h.2.1 rfl rfl
  exact ⟨h2, h.1 h2⟩

end Req

namespace Req

/-- C1 (code bug): dispatching `post()` on the `/users` example builder
invokes the transport with the built URL but with
`FetchArg.paramsFunction` — the uninvoked `_parameters` function object —
as second argument, which is not an assembled parameter record, while the
specified second argument `specFetchArg` is one. -/
theorem C1_transport_arg_bug :
    (b0.post .undefined (.ok ()) (.ok ())).1
      = [Event.invokeTransport "https://api.x.com/users" FetchArg.paramsFunction]
    ∧ FetchArg.isRecord FetchArg.paramsFunction = false
    ∧ FetchArg.isRecord (specFetchArg b0 "POST") = true := by
  refine ⟨?_, rfl, rfl⟩
  with_unfolding_all rfl

/-- C2 (code bug): `get()` with no explicit path on the `/users` example
builder targets `https://api.x.com/users`, matching the spec-side URL, but
`delete()` on the same builder targets `https://api.x.com` alone, because
the source reads the non-existent property `this._path` instead of
`__path`. -/
theorem C2_delete_path_bug :
    (b0.get .undefined (.ok ()) (.ok ())).1
      = [Event.invokeTransport "https://api.x.com/users" FetchArg.paramsFunction]
    ∧ specTransportURL b0 .undefined = "https://api.x.com/users"
    ∧ (b0.delete .undefined (.ok ()) (.ok ())).1
      = [Event.invokeTransport "https://api.x.com" FetchArg.paramsFunction] := by
  refine ⟨?_, ?_, ?_⟩ <;> with_unfolding_all rfl

/-- C6: `withHeader` fails with `InvalidRequestHeader` exactly when the key
or the value is not a string, leaving the instance untouched; on success it
overwrites the key's entry (last-write-wins), leaves every other key
unchanged, and changes nothing but the header mapping. -/
theorem withHeader_err (ctx : Builder) (key value : JSVal)
    (h : (isString key && isString value) = false) :
    ctx.withHeader key value = (ctx, some (.invalidRequestHeader key value)) := by
  unfold Builder.withHeader
  have hc : (isNotString key || isNotString value) = true := by
    have h1 : isNotString key = !(isString key) := rfl
    have h2 : isNotString value = !(isString value) := rfl
    rw [h1, h2, ← Bool.not_and, h]
    rfl
  simp [hc]

theorem withHeader_ok (ctx : Builder) (key value : JSVal)
    (h : (isString key && isString value) = true) :
    ctx.withHeader key value
      = ({ ctx with headers := setKey ctx.headers (asString key) value }, none) := by
  unfold Builder.withHeader
  have hc : (isNotString key || isNotString value) = false := by
    have h1 : isNotString key = !(isString key) := rfl
    have h2 : isNotString value = !(isString value) := rfl
    rw [h1, h2, ← Bool.not_and, h]
    rfl
  simp [hc]

theorem C6_withHeader (ctx : Builder) (key value : JSVal) :
    ((ctx.withHeader key value).2 = none ↔ (isString key && isString value) = true)
    ∧ ((isString key && isString value) = false →
        ctx.withHeader key value = (ctx, some (.invalidRequestHeader key value)))
    ∧ ((isString key && isString value) = true →
        (ctx.withHeader key value).2 = none
        ∧ objGet (ctx.withHeader key value).1.headers (asString key) = value
        ∧ (∀ k2 : String, k2 ≠ asString key →
            objGet (ctx.withHeader key value).1.headers k2 = objGet ctx.headers k2)
        ∧ (ctx.withHeader key value).1 =
            { ctx with headers := (ctx.withHeader key value).1.headers }) := by
  refine ⟨⟨?_, ?_⟩, fun h => withHeader_err ctx key value h, fun h => ?_⟩
  · intro h2
    rcases Bool.eq_false_or_eq_true (isString key && isString value) with h | h
    · exact h
    · rw [withHeader_err ctx key value h] at h2
      simp at h2
  · intro h
    rw [withHeader_ok ctx key value h]
  · rw [withHeader_ok ctx key value h]
    exact ⟨rfl, objGet_setKey_self _ _ _,
      fun k2 h2 => objGet_setKey_ne _ _ _ _ h2, rfl⟩

theorem C6_withHeader_witness :
    Builder.withHeader b0 (.num 1) (.str "a")
      = (b0, some (.invalidRequestHeader (.num 1) (.str "a")))
    ∧ objGet (Builder.withHeader b0 (.str "X") (.str "1")).1.headers "X"
      = .str "1" :=
  ⟨(C6_withHeader b0 (.num 1) (.str "a")).2.1 rfl,
    ((C6_withHeader b0 (.str "X") (.str "1")).2.2 rfl).2.1⟩

/-- C7: `withBody` fails with `InvalidBody` exactly when the body is
undefined-or-null, leaving the instance untouched; any other value
(including `0`, `""`, `false`, `[]`, `{}`) is stored exactly, changing
nothing else. -/
theorem C7_withBody (ctx : Builder) (body : JSVal) :
    (isUndefinedOrNull body = true →
      ctx.withBody body = (ctx, some (.invalidBody body)))
    ∧ (isUndefinedOrNull body = false →
      ctx.withBody body = ({ ctx with body := body }, none))
    ∧ ((ctx.withBody body).2 = none ↔ isUndefinedOrNull body = false) := by
  unfold Builder.withBody
  by_cases h : isUndefinedOrNull body <;> simp [h]

theorem C7_withBody_witness :
    Builder.withBody b0 (.num 0) = ({ b0 with body := .num 0 }, none)
    ∧ Builder.withBody b0 (.str "") = ({ b0 with body := .str "" }, none)
    ∧ Builder.withBody b0 (.bool false) = ({ b0 with body := .bool false }, none)
    ∧ Builder.withBody b0 (.arr []) = ({ b0 with body := .arr [] }, none)
    ∧ Builder.withBody b0 (.obj []) = ({ b0 with body := .obj [] }, none)
    ∧ Builder.withBody b0 .null = (b0, some (.invalidBody .null))
    ∧ Builder.withBody b0 .undefined = (b0, some (.invalidBody .undefined)) :=
  ⟨(C7_withBody b0 _).2.1 rfl, (C7_withBody b0 _).2.1 rfl,
    (C7_withBody b0 _).2.1 rfl, (C7_withBody b0 _).2.1 rfl,
    (C7_withBody b0 _).2.1 rfl, (C7_withBody b0 _).1 rfl,
    (C7_withBody b0 _).1 rfl⟩

/-- C8: on a configuration object, each of the `header`/`body` slots
replaces the stored middleware exactly when the supplied value classifies
as a function, is left unchanged otherwise, and no error is raised. -/
theorem C8_withMiddleware_slots (ctx : Builder) (fs : List (String × JSVal)) :
    ctx.withMiddleware (.obj fs) =
      ({ ctx with middlewares :=
          { body := if isFunction (objGet fs "body") then objGet fs "body"
              else ctx.middlewares.body
            header := if isFunction (objGet fs "header") then objGet fs "header"
              else ctx.middlewares.header } }, none) := by
  unfold Builder.withMiddleware destructureSlot
  by_cases h1 : isFunction (objGet fs "header") <;>
    by_cases h2 : isFunction (objGet fs "body") <;> simp [h1, h2]

/-- C9: `withBearerAuthorization` on a string token equals
`withAuthorization` of `"Bearer "` followed by the token, setting the
`Authorization` header to that string without error; and for every token
whatsoever it never raises `InvalidRequestHeader`. -/
theorem C9_bearer (ctx : Builder) (s : String) :
    ctx.withBearerAuthorization (.str s)
      = ctx.withAuthorization (.str ("Bearer " ++ s))
    ∧ objGet (ctx.withBearerAuthorization (.str s)).1.headers "Authorization"
      = .str ("Bearer " ++ s)
    ∧ (ctx.withBearerAuthorization (.str s)).2 = none
    ∧ (∀ t k v : JSVal,
        (ctx.withBearerAuthorization t).2 ≠ some (.invalidRequestHeader k v)) := by
  refine ⟨rfl, ?_, rfl, ?_⟩
  · show objGet (setKey ctx.headers "Authorization" (.str ("Bearer " ++ s)))
      "Authorization" = .str ("Bearer " ++ s)
    exact objGet_setKey_self _ _ _
  · intro t k v
    unfold Builder.withBearerAuthorization
    cases jsToString t with
    | none => simp
    | some s2 =>
      simp [Builder.withAuthorization, Builder.withHeader, isNotString, typeName]

theorem C9_bearer_witness :
    objGet (Builder.withBearerAuthorization b0 (.str "xyz")).1.headers
      "Authorization" = .str "Bearer xyz" :=
  (C9_bearer b0 "xyz").2.1

/-- C10: calling `withMiddleware` with no argument (`undefined`) or with
`null` throws a `TypeError` and leaves the instance untouched, while any
object argument is accepted without error. -/
theorem C10_withMiddleware_nullish (ctx : Builder) :
    ctx.withMiddleware .undefined
      = (ctx, some (.typeError "Cannot destructure property of undefined"))
    ∧ ctx.withMiddleware .null
      = (ctx, some (.typeError "Cannot destructure property of null"))
    ∧ (∀ fs : List (String × JSVal), (ctx.withMiddleware (.obj fs)).2 = none) :=
  ⟨rfl, rfl, fun _ => rfl⟩

end Req
